import Mathlib

/-!
Verification of the cback storage driver (`cback/storage/cback.go` and its
helpers) of the reva-plugins repository, against its natural-language
specification.  Go strings are byte sequences; we model them as `List Nat`
with byte values `< 256`.  Pure helper functions are translated directly;
the remote catalog client, the per-request user context and the templating
engine are modelled as oracle functions supplied through an environment
record.
-/

namespace CbackFS

/-- A Go string, as a list of byte values. -/
abbrev GoStr := List Nat

/-- Bytes of an ASCII Lean string literal (used for concrete inputs only). -/
def str (s : String) : GoStr := s.data.map Char.toNat

/-- All bytes of a Go string are below 256. -/
def bytesValid (s : GoStr) : Prop := ∀ b ∈ s, b < 256

instance (s : GoStr) : Decidable (bytesValid s) := by
  unfold bytesValid; infer_instance

/-- The byte `'#'`, the delimiter of the resource-ID codec. -/
def hashB : Nat := 35

/-- The byte `'/'`. -/
def slashB : Nat := 47

/-- The byte `'.'`. -/
def dotB : Nat := 46

/-! ## base64 (Go `encoding/base64` StdEncoding) -/

/-- The standard base64 alphabet: sextet value to byte. -/
def b64Char (i : Nat) : Nat :=
  if i < 26 then 65 + i
  else if i < 52 then 97 + (i - 26)
  else if i < 62 then 48 + (i - 52)
  else if i = 62 then 43
  else 47

/-- Inverse alphabet lookup: byte to sextet value, `none` off-alphabet. -/
def b64Index (c : Nat) : Option Nat :=
  if 65 ≤ c ∧ c ≤ 90 then some (c - 65)
  else if 97 ≤ c ∧ c ≤ 122 then some (26 + (c - 97))
  else if 48 ≤ c ∧ c ≤ 57 then some (52 + (c - 48))
  else if c = 43 then some 62
  else if c = 47 then some 63
  else none

/-- `base64.StdEncoding.EncodeToString`: three input bytes become four
alphabet bytes; a final group of one or two bytes is padded with `'='`
(byte 61). -/
def base64Encode : GoStr → GoStr
  | [] => []
  | [a] => [b64Char (a / 4), b64Char (a % 4 * 16), 61, 61]
  | [a, b] => [b64Char (a / 4), b64Char (a % 4 * 16 + b / 16), b64Char (b % 16 * 4), 61]
  | a :: b :: c :: rest =>
      b64Char (a / 4) :: b64Char (a % 4 * 16 + b / 16) ::
      b64Char (b % 16 * 4 + c / 64) :: b64Char (c % 64) :: base64Encode rest

/-- Core of `base64.StdEncoding.DecodeString` on newline-free input: decode
in quanta of four bytes; a trailing quantum may carry one or two `'='`
padding bytes (non-zero trailing bits are accepted, as the non-strict Go
decoder does); anything else is a decode error. -/
def base64DecodeCore : GoStr → Option GoStr
  | [] => some []
  | c1 :: c2 :: c3 :: c4 :: rest =>
    match b64Index c1, b64Index c2 with
    | some s1, some s2 =>
      if c3 = 61 ∧ c4 = 61 ∧ rest = [] then
        some [s1 * 4 + s2 / 16]
      else if c4 = 61 ∧ rest = [] then
        match b64Index c3 with
        | some s3 => some [s1 * 4 + s2 / 16, s2 % 16 * 16 + s3 / 4]
        | none => none
      else
        match b64Index c3, b64Index c4 with
        | some s3, some s4 =>
          (base64DecodeCore rest).map
            (fun ds => (s1 * 4 + s2 / 16) :: (s2 % 16 * 16 + s3 / 4) :: (s3 % 4 * 64 + s4) :: ds)
        | _, _ => none
    | _, _ => none
  | _ => none

/-- `base64.StdEncoding.DecodeString`: the Go decoder skips `'\r'` and
`'\n'` bytes anywhere in the input before decoding in quanta of four. -/
def base64Decode (s : GoStr) : Option GoStr :=
  base64DecodeCore (s.filter (fun c => decide (c ≠ 10) && decide (c ≠ 13)))

theorem b64Index_b64Char : ∀ i < 64, b64Index (b64Char i) = some i := by decide

theorem b64Char_ne_pad : ∀ i < 64, b64Char i ≠ 61 := by decide

theorem b64Char_ne_nl (i : Nat) : b64Char i ≠ 10 ∧ b64Char i ≠ 13 := by
  unfold b64Char
  split_ifs <;> omega

theorem base64Encode_no_nl (bs : GoStr) :
    ∀ c ∈ base64Encode bs, c ≠ 10 ∧ c ≠ 13 := by
  induction bs using base64Encode.induct with
  | case1 => intro c hc; simp [base64Encode] at hc
  | case2 a =>
      intro c hc
      simp only [base64Encode, List.mem_cons, List.not_mem_nil, or_false] at hc
      rcases hc with h | h | h | h <;> subst h
      · exact b64Char_ne_nl _
      · exact b64Char_ne_nl _
      · exact ⟨by omega, by omega⟩
      · exact ⟨by omega, by omega⟩
  | case3 a b =>
      intro c hc
      simp only [base64Encode, List.mem_cons, List.not_mem_nil, or_false] at hc
      rcases hc with h | h | h | h <;> subst h
      · exact b64Char_ne_nl _
      · exact b64Char_ne_nl _
      · exact b64Char_ne_nl _
      · exact ⟨by omega, by omega⟩
  | case4 a b c rest ih =>
      intro x hx
      simp only [base64Encode, List.mem_cons] at hx
      rcases hx with h | h | h | h | h
      · subst h; exact b64Char_ne_nl _
      · subst h; exact b64Char_ne_nl _
      · subst h; exact b64Char_ne_nl _
      · subst h; exact b64Char_ne_nl _
      · exact ih x h

theorem base64DecodeCore_encode (bs : GoStr) (h : bytesValid bs) :
    base64DecodeCore (base64Encode bs) = some bs := by
  induction bs using base64Encode.induct with
  | case1 => simp [base64Encode, base64DecodeCore]
  | case2 a =>
      have ha : a < 256 := h a (by simp)
      have h1 := b64Index_b64Char (a / 4) (by omega)
      have h2 := b64Index_b64Char (a % 4 * 16) (by omega)
      have e1 : a / 4 * 4 + a % 4 * 16 / 16 = a := by omega
      simp only [base64Encode, base64DecodeCore, h1, h2, and_self, if_true, e1]
  | case3 a b =>
      have ha : a < 256 := h a (by simp)
      have hb : b < 256 := h b (by simp)
      have h1 := b64Index_b64Char (a / 4) (by omega)
      have h2 := b64Index_b64Char (a % 4 * 16 + b / 16) (by omega)
      have h3 := b64Index_b64Char (b % 16 * 4) (by omega)
      have hne := b64Char_ne_pad (b % 16 * 4) (by omega)
      have e1 : a / 4 * 4 + (a % 4 * 16 + b / 16) / 16 = a := by omega
      have e2 : (a % 4 * 16 + b / 16) % 16 * 16 + b % 16 * 4 / 4 = b := by omega
      simp only [base64Encode, base64DecodeCore, h1, h2, h3, hne, false_and, and_false,
        if_false, and_self, and_true, if_true, e1, e2]
  | case4 a b c rest ih =>
      have ha : a < 256 := h a (by simp)
      have hb : b < 256 := h b (by simp)
      have hc : c < 256 := h c (by simp)
      have hrest : bytesValid rest := fun x hx => h x (by simp [hx])
      have h1 := b64Index_b64Char (a / 4) (by omega)
      have h2 := b64Index_b64Char (a % 4 * 16 + b / 16) (by omega)
      have h3 := b64Index_b64Char (b % 16 * 4 + c / 64) (by omega)
      have h4 := b64Index_b64Char (c % 64) (by omega)
      have hne3 := b64Char_ne_pad (b % 16 * 4 + c / 64) (by omega)
      have hne4 := b64Char_ne_pad (c % 64) (by omega)
      have e1 : a / 4 * 4 + (a % 4 * 16 + b / 16) / 16 = a := by omega
      have e2 : (a % 4 * 16 + b / 16) % 16 * 16 + (b % 16 * 4 + c / 64) / 4 = b := by omega
      have e3 : (b % 16 * 4 + c / 64) % 4 * 64 + c % 64 = c := by omega
      simp only [base64Encode, base64DecodeCore, h1, h2, h3, h4, hne3, hne4, false_and,
        and_false, if_false, ih hrest, e1, e2, e3]
      rfl

/-- The decoder inverts the encoder on byte-valid input. -/
theorem base64Decode_encode (bs : GoStr) (h : bytesValid bs) :
    base64Decode (base64Encode bs) = some bs := by
  unfold base64Decode
  have hf : (base64Encode bs).filter (fun c => decide (c ≠ 10) && decide (c ≠ 13))
      = base64Encode bs := by
    apply List.filter_eq_self.2
    intro c hc
    have := base64Encode_no_nl bs c hc
    simp [this.1, this.2]
  rw [hf]
  exact base64DecodeCore_encode bs h

/-! ## Decimal integers (Go `fmt.Sprintf("%d", …)` and `strconv.ParseInt`) -/

/-- Decimal digit bytes, most significant first, with explicit recursion
fuel (so that the definition is structurally recursive and evaluates in
the kernel).  `fuel > n` suffices. -/
def natDigitsF (fuel n : Nat) : GoStr :=
  match fuel with
  | 0 => []
  | fuel + 1 => if n < 10 then [48 + n] else natDigitsF fuel (n / 10) ++ [48 + n % 10]

/-- Decimal digit bytes of a natural number, most significant first. -/
def natDigits (n : Nat) : GoStr := natDigitsF (n + 1) n

theorem natDigitsF_congr : ∀ f1 : Nat, ∀ f2 n : Nat, n < f1 → n < f2 →
    natDigitsF f1 n = natDigitsF f2 n := by
  intro f1
  induction f1 with
  | zero => intro f2 n h1 _; omega
  | succ f ih =>
      intro f2 n h1 h2
      cases f2 with
      | zero => omega
      | succ f2' =>
          simp only [natDigitsF]
          split_ifs with h10
          · rfl
          · rw [ih f2' (n / 10) (by omega) (by omega)]

/-- The recursion equation of `natDigits`. -/
theorem natDigits_eq (n : Nat) :
    natDigits n = if n < 10 then [48 + n] else natDigits (n / 10) ++ [48 + n % 10] := by
  show (if n < 10 then [48 + n] else natDigitsF n (n / 10) ++ [48 + n % 10]) = _
  split_ifs with h
  · rfl
  · rw [natDigitsF_congr n (n / 10 + 1) (n / 10) (by omega) (by omega)]
    rfl

/-- `fmt.Sprintf("%d", i)` for a Go `int`. -/
def formatInt (i : Int) : GoStr :=
  if i < 0 then 45 :: natDigits (-i).toNat else natDigits i.toNat

/-- Value of a decimal digit byte. -/
def digitVal (c : Nat) : Option Nat :=
  if 48 ≤ c ∧ c ≤ 57 then some (c - 48) else none

/-- Left-to-right accumulation of decimal digit bytes. -/
def parseDigitsAux (acc : Nat) : GoStr → Option Nat
  | [] => some acc
  | c :: cs =>
    match digitVal c with
    | some d => parseDigitsAux (acc * 10 + d) cs
    | none => none

/-- Parse a non-empty all-digit byte string. -/
def parseDigits (s : GoStr) : Option Nat :=
  if s = [] then none else parseDigitsAux 0 s

/-- `strconv.ParseInt(s, 10, 64)`: an optional leading sign followed by at
least one decimal digit; values outside the signed 64-bit range are a
range error.  Errors are modelled as `none`. -/
def parseInt64 (s : GoStr) : Option Int :=
  match s with
  | [] => none
  | c :: rest =>
    if c = 45 then
      match parseDigits rest with
      | some n => if n ≤ 2 ^ 63 then some (-(n : Int)) else none
      | none => none
    else if c = 43 then
      match parseDigits rest with
      | some n => if n < 2 ^ 63 then some (n : Int) else none
      | none => none
    else
      match parseDigits s with
      | some n => if n < 2 ^ 63 then some (n : Int) else none
      | none => none

theorem natDigits_ne_nil (n : Nat) : natDigits n ≠ [] := by
  rw [natDigits_eq]
  split_ifs
  · simp
  · simp

theorem natDigits_head_digit (n : Nat) :
    ∀ c ∈ natDigits n, 48 ≤ c ∧ c ≤ 57 := by
  induction n using Nat.strong_induction_on with
  | _ n ih =>
      intro c hc
      rw [natDigits_eq] at hc
      split_ifs at hc with h
      · simp only [List.mem_singleton] at hc
        omega
      · rcases List.mem_append.1 hc with h1 | h1
        · exact ih (n / 10) (by omega) c h1
        · simp only [List.mem_singleton] at h1
          omega

theorem parseDigitsAux_natDigits (n : Nat) :
    ∀ acc t, parseDigitsAux acc (natDigits n ++ t)
      = parseDigitsAux (acc * 10 ^ (natDigits n).length + n) t := by
  induction n using Nat.strong_induction_on with
  | _ n ih =>
      intro acc t
      rw [natDigits_eq]
      split_ifs with h
      · have hd : digitVal (48 + n) = some n := by
          unfold digitVal
          rw [if_pos (by omega)]
          congr 1
          omega
        simp only [List.singleton_append, List.length_singleton, parseDigitsAux, hd, pow_one]
        rfl
      · have hd : digitVal (48 + n % 10) = some (n % 10) := by
          unfold digitVal
          rw [if_pos (by omega)]
          congr 1
          omega
        rw [List.append_assoc, ih (n / 10) (by omega) acc, List.singleton_append,
          List.length_append, List.length_singleton]
        simp only [parseDigitsAux, hd]
        have e2 : acc * 10 ^ ((natDigits (n / 10)).length + 1)
            = acc * 10 ^ (natDigits (n / 10)).length * 10 := by ring
        rw [e2]
        generalize acc * 10 ^ (natDigits (n / 10)).length = M
        congr 1
        omega

theorem parseDigits_natDigits (n : Nat) : parseDigits (natDigits n) = some n := by
  unfold parseDigits
  rw [if_neg (natDigits_ne_nil n)]
  have := parseDigitsAux_natDigits n 0 []
  rw [List.append_nil] at this
  rw [this]
  simp [parseDigitsAux]

/-- The Go integer parser inverts `%d` formatting on the `int64` range. -/
theorem parseInt64_formatInt (i : Int) (hlo : -(2 ^ 63) ≤ i) (hhi : i < 2 ^ 63) :
    parseInt64 (formatInt i) = some i := by
  unfold formatInt
  split_ifs with hneg
  · have hle : (-i).toNat ≤ 2 ^ 63 := by omega
    have hcast : (((-i).toNat : Int)) = -i := by omega
    simp [parseInt64, parseDigits_natDigits, hle, hcast]
    omega
  · have hhead : ∀ c ∈ natDigits i.toNat, 48 ≤ c ∧ c ≤ 57 := natDigits_head_digit _
    rcases hnd : natDigits i.toNat with _ | ⟨c, rest⟩
    · exact absurd hnd (natDigits_ne_nil _)
    · have hc := hhead c (by rw [hnd]; simp)
      simp only [parseInt64]
      rw [if_neg (by omega), if_neg (by omega), ← hnd, parseDigits_natDigits]
      have hlt : i.toNat < 2 ^ 63 := by omega
      have hcast : ((i.toNat : Int)) = i := by omega
      simp [hlt, hcast]
      omega

/-! ## String splitting (Go `strings.SplitN`, `strings.Split`,
`strings.HasPrefix`) -/

/-- Split off the part of `s` before the first occurrence of the byte
`sep`, together with the rest; `none` when `sep` does not occur. -/
def splitFirst (sep : Nat) : GoStr → Option (GoStr × GoStr)
  | [] => none
  | c :: cs =>
    if c = sep then some ([], cs)
    else
      match splitFirst sep cs with
      | none => none
      | some (p, r) => some (c :: p, r)

/-- Go `strings.SplitN(s, sep, n)` for a single-byte separator and `n > 0`:
at most `n` substrings, the last one unsplit. -/
def splitN (sep : Nat) : Nat → GoStr → List GoStr
  | 0, _ => []
  | 1, s => [s]
  | n + 2, s =>
    match splitFirst sep s with
    | none => [s]
    | some (p, r) => p :: splitN sep (n + 1) r

/-- Accumulator loop for `strings.Split`: `acc` holds the bytes of the
current field in reverse. -/
def splitAllAux (sep : Nat) : GoStr → GoStr → List GoStr
  | acc, [] => [acc.reverse]
  | acc, c :: cs =>
    if c = sep then acc.reverse :: splitAllAux sep [] cs
    else splitAllAux sep (c :: acc) cs

/-- Go `strings.Split(s, sep)` for a single-byte separator: all substrings. -/
def splitAll (sep : Nat) (s : GoStr) : List GoStr := splitAllAux sep [] s

/-- Go `strings.HasPrefix(s, pre)`. -/
def goStrHasPref : GoStr → GoStr → Bool
  | _, [] => true
  | [], _ :: _ => false
  | c :: cs, p :: ps => decide (c = p) && goStrHasPref cs ps

theorem splitFirst_of_no_sep (sep : Nat) :
    ∀ s, sep ∉ s → splitFirst sep s = none := by
  intro s
  induction s with
  | nil => intro _; rfl
  | cons c cs ih =>
      intro h
      simp only [List.mem_cons, not_or] at h
      have hne : c ≠ sep := by
        intro hc
        exact h.1 hc.symm
      simp only [splitFirst, if_neg hne, ih h.2]

theorem splitFirst_append (sep : Nat) :
    ∀ p r, sep ∉ p → splitFirst sep (p ++ sep :: r) = some (p, r) := by
  intro p
  induction p with
  | nil => intro r _; simp [splitFirst]
  | cons c cs ih =>
      intro r h
      simp only [List.mem_cons, not_or] at h
      have hne : c ≠ sep := by
        intro hc
        exact h.1 hc.symm
      simp only [List.cons_append, splitFirst, if_neg hne]
      rw [show cs.append (sep :: r) = cs ++ sep :: r from rfl, ih r h.2]

/-- `SplitN(a#b#c#d, "#", 4)` recovers the four fields when the first
three contain no separator (the fourth may). -/
theorem splitN_four (sep : Nat) (a b c d : GoStr)
    (ha : sep ∉ a) (hb : sep ∉ b) (hc : sep ∉ c) :
    splitN sep 4 (a ++ sep :: (b ++ sep :: (c ++ sep :: d))) = [a, b, c, d] := by
  show splitN sep (2 + 2) _ = _
  simp only [splitN, splitFirst_append sep a _ ha]
  show (a :: splitN sep (1 + 2) _) = _
  simp only [splitN, splitFirst_append sep b _ hb]
  show (a :: b :: splitN sep (0 + 2) _) = _
  simp only [splitN, splitFirst_append sep c _ hc]

/-! ## Paths (Go `path/filepath` on Unix: `Clean`, `Join`, `Dir`, `Rel`) -/

/-- Join path segments with `'/'`. -/
def joinSegs : List GoStr → GoStr
  | [] => []
  | [s] => s
  | s :: rest => s ++ slashB :: joinSegs rest

/-- The element loop of `filepath.Clean`: empty and `"."` segments are
dropped, `".."` pops the last kept segment unless it is itself an
unpoppable leading `".."` (kept only on relative paths; dropped at the
root).  `acc` holds kept segments in reverse. -/
def cleanSegs (rooted : Bool) : List GoStr → List GoStr → List GoStr
  | acc, [] => acc.reverse
  | acc, s :: rest =>
    if s = [] ∨ s = [dotB] then cleanSegs rooted acc rest
    else if s = [dotB, dotB] then
      match acc with
      | [] => if rooted then cleanSegs rooted [] rest else cleanSegs rooted [s] rest
      | a :: acc' =>
        if a = [dotB, dotB] then cleanSegs rooted (s :: a :: acc') rest
        else cleanSegs rooted acc' rest
    else cleanSegs rooted (s :: acc) rest

/-- Go `filepath.Clean` (Unix). -/
def clean (p : GoStr) : GoStr :=
  if p = [] then [dotB]
  else
    let rooted := decide (p.headI = slashB)
    let body := joinSegs (cleanSegs rooted [] (splitAll slashB p))
    if rooted then (if body = [] then [slashB] else slashB :: body)
    else (if body = [] then [dotB] else body)

/-- Go `filepath.Join` (Unix): leading empty elements are skipped, the
rest are joined with `'/'` and cleaned; all-empty input gives `""`. -/
def goJoin (elems : List GoStr) : GoStr :=
  match elems.dropWhile (fun e => decide (e = [])) with
  | [] => []
  | es => clean (joinSegs es)

/-- `filepath.Join` with two elements. -/
def joinPath (a b : GoStr) : GoStr := goJoin [a, b]

/-- `filepath.Join` with three elements. -/
def joinPath3 (a b c : GoStr) : GoStr := goJoin [a, b, c]

/-- The prefix of `p` up to and including the last `'/'`. -/
def dirPart (p : GoStr) : GoStr :=
  (p.reverse.dropWhile (fun c => decide (c ≠ slashB))).reverse

/-- Go `filepath.Dir` (Unix). -/
def goDir (p : GoStr) : GoStr := clean (dirPart p)

/-- Segments of an already-cleaned, root-stripped path; the empty string
has no segments. -/
def segsOfStr (s : GoStr) : List GoStr :=
  if s = [] then [] else splitAll slashB s

/-- Drop the longest common prefix of two segment lists, returning the two
remainders (the position of the first differing elements in
`filepath.Rel`). -/
def dropCommon : List GoStr → List GoStr → List GoStr × List GoStr
  | a :: as', b :: bs' =>
    if a = b then dropCommon as' bs' else (a :: as', b :: bs')
  | as', bs' => (as', bs')

/-- Go `filepath.Rel(base, targ)` (Unix), `none` on error.  Both paths are
cleaned; equal paths give `"."`; a rooted/relative mismatch is an error;
otherwise the result climbs out of the uncommon base segments with `".."`
and descends into the uncommon target segments. -/
def goRel (base targ : GoStr) : Option GoStr :=
  let b0 := clean base
  let t := clean targ
  if b0 = t then some [dotB]
  else
    let b := if b0 = [dotB] then [] else b0
    let bS := decide (b ≠ [] ∧ b.headI = slashB)
    let tS := decide (t ≠ [] ∧ t.headI = slashB)
    if bS ≠ tS then none
    else
      let bsegs := segsOfStr (if bS then b.drop 1 else b)
      let tsegs := segsOfStr (if tS then t.drop 1 else t)
      let rem := dropCommon bsegs tsegs
      if rem.1.headI = [dotB, dotB] ∧ rem.1 ≠ [] then none
      else some (joinSegs (List.replicate rem.1.length [dotB, dotB] ++ rem.2))

/-! ## The path resolver (`split`), the resource-ID codec and
`isParentOfBackup` from `cback/storage/cback.go` -/

/-- The fields of `utils.Backup` used by the storage driver. -/
structure Backup where
  id : Int
  source : GoStr
deriving DecidableEq

/-- The five return values of `split`. -/
structure SplitResult where
  source : GoStr
  snap : GoStr
  path : GoStr
  id : Int
  found : Bool
deriving DecidableEq

/-- `split` (cback.go lines 101–123): first backup whose source is a
`strings.HasPrefix` of the path wins; the path relative to the source is
split once on `'/'` into snapshot and remaining path.  The ignored error
of `filepath.Rel` leaves `rel = ""`. -/
def split (path : GoStr) : List Backup → SplitResult
  | [] => ⟨[], [], [], 0, false⟩
  | b :: bs =>
    if goStrHasPref path b.source then
      let rel := (goRel b.source path).getD []
      if rel = [dotB] then ⟨b.source, [], [], b.id, true⟩
      else
        match splitN slashB 2 rel with
        | [s] => ⟨b.source, s, [], b.id, true⟩
        | s :: p :: _ => ⟨b.source, s, p, b.id, true⟩
        | [] => ⟨b.source, [], [], b.id, true⟩
    else split path bs

/-- A `provider.ResourceId`. -/
structure ResourceId where
  storageId : GoStr
  opaqueId : GoStr
deriving DecidableEq

/-- `encodeBackupInResourceID` (cback.go lines 159–166):
`fmt.Sprintf("%d#%s#%s#%s", backupID, snapshotID, source, path)`,
base64-encoded, under the fixed storage id `"cback"`. -/
def encodeBackupInResourceID (backupID : Int) (snapshotID source path : GoStr) : ResourceId :=
  ⟨str ("cback"),
   base64Encode (formatInt backupID ++ hashB :: (snapshotID ++ hashB :: (source ++ hashB :: path)))⟩

/-- The five return values of `decodeResourceID`. -/
structure DecodeResult where
  source : GoStr
  snap : GoStr
  path : GoStr
  id : Int
  ok : Bool
deriving DecidableEq

/-- `decodeResourceID` (cback.go lines 169–186): a nil id, a base64
decode error, a field count other than four, or a non-integer first field
give the zero values and `ok = false`; otherwise the decoded fields are
returned as `(source, snapshot, path, backupID, true)`. -/
def decodeResourceID : Option ResourceId → DecodeResult
  | none => ⟨[], [], [], 0, false⟩
  | some r =>
    match base64Decode r.opaqueId with
    | none => ⟨[], [], [], 0, false⟩
    | some data =>
      match splitN hashB 4 data with
      | [p0, p1, p2, p3] =>
        match parseInt64 p0 with
        | some backupID => ⟨p2, p1, p3, backupID, true⟩
        | none => ⟨[], [], [], 0, false⟩
      | _ => ⟨[], [], [], 0, false⟩

/-- `hasPrefix` (cback.go lines 222–229) compares the first `len(pre)`
elements of `lst`.  Go indexes `lst[i]` unconditionally and panics when
`pre` is longer than `lst`; the call sites verified here never reach that
case, and it is modelled as `false`. -/
def listHasPref : List GoStr → List GoStr → Bool
  | _, [] => true
  | [], _ :: _ => false
  | l :: ls, p :: ps => decide (l = p) && listHasPref ls ps

/-- `isParentOfBackup` (cback.go lines 231–243). -/
def isParentOfBackup (path : GoStr) (backups : List Backup) : Bool :=
  let pathSplit := if path = str ("/") then [([] : GoStr)] else splitAll slashB path
  backups.any (fun b => listHasPref (splitAll slashB b.source) pathSplit)

theorem natDigits_bytes (n : Nat) : ∀ c ∈ natDigits n, 48 ≤ c ∧ c ≤ 57 :=
  natDigits_head_digit n

theorem formatInt_bytesValid (i : Int) : bytesValid (formatInt i) := by
  intro b hb
  unfold formatInt at hb
  split_ifs at hb
  · rcases List.mem_cons.1 hb with h | h
    · omega
    · have := natDigits_bytes _ b h
      omega
  · have := natDigits_bytes _ b hb
    omega

theorem hashB_not_mem_formatInt (i : Int) : hashB ∉ formatInt i := by
  intro hb
  unfold formatInt at hb
  unfold hashB at hb
  split_ifs at hb
  · rcases List.mem_cons.1 hb with h | h
    · omega
    · have := natDigits_bytes _ _ h
      omega
  · have := natDigits_bytes _ _ hb
    omega

/-- Round-trip of the resource-ID codec (shared helper). -/
theorem decode_encode_eq (backupID : Int) (snap source path : GoStr)
    (hlo : -(2 ^ 63) ≤ backupID) (hhi : backupID < 2 ^ 63)
    (hsnap : hashB ∉ snap) (hsrc : hashB ∉ source)
    (hvsnap : bytesValid snap) (hvsrc : bytesValid source) (hvpath : bytesValid path) :
    decodeResourceID (some (encodeBackupInResourceID backupID snap source path))
      = ⟨source, snap, path, backupID, true⟩ := by
  have hv : bytesValid
      (formatInt backupID ++ hashB :: (snap ++ hashB :: (source ++ hashB :: path))) := by
    intro b hb
    simp only [List.mem_append, List.mem_cons] at hb
    have hh : hashB < 256 := by unfold hashB; omega
    rcases hb with h | h | h | h | h | h | h
    · exact formatInt_bytesValid backupID b h
    · omega
    · exact hvsnap b h
    · omega
    · exact hvsrc b h
    · omega
    · exact hvpath b h
  simp only [decodeResourceID, encodeBackupInResourceID, base64Decode_encode _ hv]
  rw [splitN_four hashB _ _ _ _ (hashB_not_mem_formatInt backupID) hsnap hsrc]
  simp only [parseInt64_formatInt backupID hlo hhi]

/-- C1.  Resource-ID codec round-trip: when the snapshot id and the
source contain no `'#'` delimiter (the path may), decoding the encoded id
returns `(source, snapshotID, path, backupID, true)` — the bounded 4-way
split preserves `'#'` bytes inside the path verbatim.  The backup id
ranges over Go's 64-bit `int` and the strings over byte strings. -/
theorem decodeResourceID_encodeBackupInResourceID (backupID : Int) (snap source path : GoStr)
    (hlo : -(2 ^ 63) ≤ backupID) (hhi : backupID < 2 ^ 63)
    (hsnap : hashB ∉ snap) (hsrc : hashB ∉ source)
    (hvsnap : bytesValid snap) (hvsrc : bytesValid source) (hvpath : bytesValid path) :
    decodeResourceID (some (encodeBackupInResourceID backupID snap source path))
      = ⟨source, snap, path, backupID, true⟩ :=
  decode_encode_eq backupID snap source path hlo hhi hsnap hsrc hvsnap hvsrc hvpath

/-- C1 witness: a concrete round-trip with a `'#'` inside the path. -/
theorem decodeResourceID_encodeBackupInResourceID_witness :
    hashB ∉ str ("snap") ∧ hashB ∉ str ("/src") ∧
    decodeResourceID (some (encodeBackupInResourceID 5 (str ("snap")) (str ("/src")) (str ("a#b/c"))))
      = ⟨str ("/src"), str ("snap"), str ("a#b/c"), 5, true⟩ :=
  ⟨by decide, by decide,
   decodeResourceID_encodeBackupInResourceID 5 (str ("snap")) (str ("/src")) (str ("a#b/c"))
     (by decide) (by decide) (by decide) (by decide) (by decide) (by decide) (by decide)⟩

/-- C2.  First-match-wins resolution: with backups `/a/b` (id 1) and
`/a/b/c` (id 2) in that order, path `/a/b/c/snap1/x` resolves to the
first backup: source `/a/b`, snapshot `c`, relative path `snap1/x`,
id 1, found. -/
theorem split_first_match_wins :
    split (str ("/a/b/c/snap1/x")) [⟨1, str ("/a/b")⟩, ⟨2, str ("/a/b/c")⟩]
      = ⟨str ("/a/b"), str ("c"), str ("snap1/x"), 1, true⟩ := by decide

/-- The specification's notion of a path-segment prefix: the path equals
the source, or continues after it with a `'/'` at the segment boundary.
(Modelled from the spec's words, for comparison with the code's raw
`strings.HasPrefix` test.) -/
def segPrefixOf (src p : GoStr) : Bool :=
  decide (p = src) || goStrHasPref p (src ++ [slashB])

/-- C3 counterexample: `split` matches path `/a/bX` against a backup with
source `/a/b` (`found = true`, snapshot `".."`), although `/a/b` is not a
path-segment prefix of `/a/bX` — the code tests a raw string prefix. -/
theorem split_matches_non_segment_prefix :
    (split (str ("/a/bX")) [⟨1, str ("/a/b")⟩]).found = true ∧
    segPrefixOf (str ("/a/b")) (str ("/a/bX")) = false ∧
    split (str ("/a/bX")) [⟨1, str ("/a/b")⟩]
      = ⟨str ("/a/b"), str (".."), str ("bX"), 1, true⟩ := by decide

/-- C3 amended: `split` matches a backup exactly when the backup's source
is a raw string prefix (`strings.HasPrefix`) of the path — not only at
path-segment boundaries. -/
theorem split_found_iff_string_pref (p : GoStr) (bs : List Backup) :
    (split p bs).found = true ↔ ∃ b ∈ bs, goStrHasPref p b.source = true := by
  induction bs with
  | nil => simp [split]
  | cons b bs ih =>
      simp only [split]
      by_cases hb : goStrHasPref p b.source = true
      · rw [if_pos hb]
        constructor
        · intro _
          exact ⟨b, by simp, hb⟩
        · intro _
          dsimp only
          split_ifs
          · rfl
          · split <;> rfl
      · rw [if_neg hb, ih]
        constructor
        · rintro ⟨b', hb', h⟩
          exact ⟨b', by simp [hb'], h⟩
        · rintro ⟨b', hb', h⟩
          rcases List.mem_cons.1 hb' with rfl | hb''
          · exact absurd h hb
          · exact ⟨b', hb'', h⟩

/-- C8.  `decodeResourceID` is total on malformed input: a nil resource
id, an opaque payload that is not valid base64, a payload with a field
count other than four, and a non-integer first field all yield the zero
values with `ok = false`. -/
theorem decodeResourceID_malformed (r : ResourceId) :
    decodeResourceID none = ⟨[], [], [], 0, false⟩ ∧
    (base64Decode r.opaqueId = none →
      decodeResourceID (some r) = ⟨[], [], [], 0, false⟩) ∧
    (∀ data, base64Decode r.opaqueId = some data → (splitN hashB 4 data).length ≠ 4 →
      decodeResourceID (some r) = ⟨[], [], [], 0, false⟩) ∧
    (∀ data p0 p1 p2 p3, base64Decode r.opaqueId = some data →
      splitN hashB 4 data = [p0, p1, p2, p3] → parseInt64 p0 = none →
      decodeResourceID (some r) = ⟨[], [], [], 0, false⟩) := by
  refine ⟨rfl, ?_, ?_, ?_⟩
  · intro h
    simp [decodeResourceID, h]
  · intro data h hlen
    rcases hs : splitN hashB 4 data with _ | ⟨a, _ | ⟨b, _ | ⟨c, _ | ⟨d, _ | ⟨e, rest⟩⟩⟩⟩⟩
    · simp [decodeResourceID, h, hs]
    · simp [decodeResourceID, h, hs]
    · simp [decodeResourceID, h, hs]
    · simp [decodeResourceID, h, hs]
    · rw [hs] at hlen
      simp at hlen
    · simp [decodeResourceID, h, hs]
  · intro data p0 p1 p2 p3 h hs hpi
    simp [decodeResourceID, h, hs, hpi]

/-- C8 witness: a non-base64 payload decodes to the zero result. -/
theorem decodeResourceID_malformed_witness :
    base64Decode (str ("%%%")) = none ∧
    decodeResourceID (some ⟨str ("cback"), str ("%%%")⟩) = ⟨[], [], [], 0, false⟩ :=
  ⟨by decide, (decodeResourceID_malformed ⟨str ("cback"), str ("%%%")⟩).2.1 (by decide)⟩

/-! ## The virtual-filesystem facade (`GetMD`, `Download`)

The per-request user context, the cache-backed catalog calls
(`f.listBackups`, `f.stat`, `f.getSnapshot`) and the configured
`tpl_cback` text template are modelled as oracle functions in an
environment record; the body of each method is translated directly. -/

/-- Error taxonomy of the driver (reva `errtypes` plus wrapped upstream
errors). -/
inductive GoError where
  | userRequired : GoStr → GoError
  | notFound : GoStr → GoError
  | badRequest : GoStr → GoError
  | notSupported : GoStr → GoError
  | upstream : GoStr → GoError
deriving DecidableEq

/-- The fields of `utils.Resource` used by the driver (`Type` is
`"dir"`/`"file"`; timestamps are modelled in whole seconds). -/
structure Resource where
  name : GoStr
  rtype : GoStr
  ctime : Nat
  size : Nat
deriving DecidableEq

/-- `Resource.IsDir`. -/
def Resource.isDir (r : Resource) : Bool := decide (r.rtype = str ("dir"))

/-- Resource type of a `provider.ResourceInfo` (container = directory). -/
inductive ResType where
  | file : ResType
  | dir : ResType
deriving DecidableEq

/-- The fields of `provider.ResourceInfo` relevant here (checksum, mime
type and permission set are constants or external-library derived and
carry no claim content). -/
structure ResourceInfo where
  rtype : ResType
  id : Option ResourceId
  etag : GoStr
  path : GoStr
  mtime : Nat
  size : Nat
  owner : GoStr
  parentId : Option ResourceId
deriving DecidableEq

/-- An authenticated user from the request context. -/
structure User where
  id : GoStr
  username : GoStr
deriving DecidableEq

/-- A `provider.Reference`: an optional resource id plus a path. -/
structure Reference where
  resourceId : Option ResourceId
  path : GoStr
deriving DecidableEq

/-- `convertToResourceInfo` (cback.go lines 132–157): note that both the
etag and the modification time are derived from the resource's ctime. -/
def convertToResourceInfo (r : Resource) (path : GoStr)
    (resID parentID : Option ResourceId) (owner : GoStr) : ResourceInfo :=
  { rtype := if r.isDir then ResType.dir else ResType.file
    id := resID
    etag := natDigits r.ctime
    path := path
    mtime := r.ctime
    size := r.size
    owner := owner
    parentId := parentID }

/-- `placeholderResourceInfo` (cback.go lines 194–220): a synthetic
directory record; a missing mtime defaults to zero and a missing id to
the path itself under the `"cback"` storage id. -/
def placeholderResourceInfo (path : GoStr) (owner : GoStr)
    (mtime : Option Nat) (resID : Option ResourceId) : ResourceInfo :=
  { rtype := ResType.dir
    id := some (resID.getD ⟨str ("cback"), path⟩)
    etag := []
    path := path
    mtime := mtime.getD 0
    size := 0
    owner := owner
    parentId := none }

instance {ε α : Type} [DecidableEq ε] [DecidableEq α] : DecidableEq (Except ε α) :=
  fun a b =>
    match a, b with
    | Except.error x, Except.error y =>
      if h : x = y then isTrue (by rw [h])
      else isFalse (by intro hc; cases hc; exact h rfl)
    | Except.ok x, Except.ok y =>
      if h : x = y then isTrue (by rw [h])
      else isFalse (by intro hc; cases hc; exact h rfl)
    | Except.error _, Except.ok _ => isFalse (by intro hc; cases hc)
    | Except.ok _, Except.error _ => isFalse (by intro hc; cases hc)

/-- The per-request environment: the context user, the (cache-backed)
catalog calls and the configured virtual-filesystem→catalog template. -/
structure Env where
  user : Option User
  listBackupsF : Except GoError (List Backup)
  statF : GoStr → Int → GoStr → GoStr → Except GoError Resource
  getSnapshotF : GoStr → Int → GoStr → Except GoError Nat
  tplCback : GoStr → GoStr

/-- `GetMD` (cback.go lines 245–307).  A reference with a resource id is
decoded directly (with `ref.Path` joined onto the decoded path); a
by-path reference is resolved with `split` and the source is passed
through the catalog-direction template.  Note that the final
parent-of-backup test and the NotFound message use the (possibly empty)
`source` variable, not `ref.Path`. -/
def getMD (e : Env) (ref : Reference) : Except GoError ResourceInfo :=
  match e.user with
  | none => Except.error (GoError.userRequired (str ("cback: user not found in context")))
  | some user =>
    match e.listBackupsF with
    | Except.error err => Except.error err
    | Except.ok backups =>
      let d : DecodeResult :=
        match ref.resourceId with
        | some rid =>
          let d0 := decodeResourceID (some rid)
          if ref.path ≠ [] then { d0 with path := joinPath d0.path ref.path } else d0
        | none =>
          let s := split ref.path backups
          { source := e.tplCback s.source, snap := s.snap, path := s.path,
            id := s.id, ok := s.found }
      if d.ok then
        if d.snap ≠ [] ∧ d.path ≠ [] then
          match e.statF user.username d.id d.snap (joinPath d.source d.path) with
          | Except.error err => Except.error err
          | Except.ok res =>
            Except.ok (convertToResourceInfo res (joinPath3 d.source d.snap d.path)
              (some (encodeBackupInResourceID d.id d.snap d.source d.path))
              (some (encodeBackupInResourceID d.id d.snap d.source (goDir d.path)))
              user.id)
        else if d.snap ≠ [] then
          match e.getSnapshotF user.username d.id d.snap with
          | Except.error err => Except.error err
          | Except.ok t =>
            Except.ok (placeholderResourceInfo (joinPath d.source d.snap) user.id (some t)
              (some (encodeBackupInResourceID d.id d.snap d.source [])))
        else Except.ok (placeholderResourceInfo d.source user.id none none)
      else if isParentOfBackup d.source backups then
        Except.ok (placeholderResourceInfo d.source user.id none none)
      else Except.error (GoError.notFound (str ("path does not exist")))

/-- The arguments `Download` hands to `client.Download`. -/
structure DownloadArgs where
  username : GoStr
  id : Int
  snapshot : GoStr
  path : GoStr
deriving DecidableEq

/-- `Download` (cback.go lines 410–431): stat via `GetMD`, reject
non-files, decode the stat's id, apply the catalog-direction template to
the decoded source (again) and call the remote download. -/
def download (e : Env) (ref : Reference) : Except GoError DownloadArgs :=
  match e.user with
  | none => Except.error (GoError.userRequired (str ("cback: user not found in context")))
  | some user =>
    match getMD e ref with
    | Except.error err => Except.error err
    | Except.ok stat =>
      if stat.rtype ≠ ResType.file then
        Except.error (GoError.badRequest (str ("cback: can only download files")))
      else
        let d := decodeResourceID stat.id
        if d.ok = false then
          Except.error (GoError.badRequest (str ("cback: can only download files")))
        else
          Except.ok ⟨user.username, d.id, d.snap, joinPath (e.tplCback d.source) d.path⟩

/-- C10.  Double template application on download: for a by-path
reference, `GetMD` applies the catalog-direction template to the resolved
source before encoding it into the returned id; `Download` decodes that
id and applies the same template again, so the path handed to the remote
download call is the template applied twice to the resolved source. -/
theorem download_applies_template_twice (e : Env) (ref : Reference) (u : User)
    (backups : List Backup) (src snap p : GoStr) (id : Int) (res : Resource)
    (hu : e.user = some u)
    (hb : e.listBackupsF = Except.ok backups)
    (hrid : ref.resourceId = none)
    (hsplit : split ref.path backups = ⟨src, snap, p, id, true⟩)
    (hsnap : snap ≠ [])
    (hpath : p ≠ [])
    (hstat : e.statF u.username id snap (joinPath (e.tplCback src) p) = Except.ok res)
    (hfile : res.isDir = false)
    (hlo : -(2 ^ 63) ≤ id) (hhi : id < 2 ^ 63)
    (hh1 : hashB ∉ snap) (hh2 : hashB ∉ e.tplCback src)
    (hv1 : bytesValid snap) (hv2 : bytesValid (e.tplCback src)) (hv3 : bytesValid p) :
    download e ref
      = Except.ok ⟨u.username, id, snap, joinPath (e.tplCback (e.tplCback src)) p⟩ := by
  have hgd : getMD e ref
      = Except.ok (convertToResourceInfo res (joinPath3 (e.tplCback src) snap p)
          (some (encodeBackupInResourceID id snap (e.tplCback src) p))
          (some (encodeBackupInResourceID id snap (e.tplCback src) (goDir p)))
          u.id) := by
    simp only [getMD, hu, hb, hrid, hsplit]
    rw [if_pos trivial, if_pos ⟨hsnap, hpath⟩, hstat]
  have hdec := decode_encode_eq id snap (e.tplCback src) p hlo hhi hh1 hh2 hv1 hv2 hv3
  simp only [download, hu, hgd, convertToResourceInfo, hfile, Bool.false_eq_true,
    if_false, hdec]
  rfl

/-- A concrete environment for the C10 witness: one backup `/a`, a
non-idempotent template prepending `/c`, and a remote stat returning a
file. -/
def envC10 : Env :=
  { user := some ⟨str ("uid"), str ("alice")⟩
    listBackupsF := Except.ok [⟨1, str ("/a")⟩]
    statF := fun _ _ _ _ => Except.ok ⟨str ("f.txt"), str ("file"), 7, 3⟩
    getSnapshotF := fun _ _ _ => Except.error (GoError.upstream [])
    tplCback := fun s => str ("/c") ++ s }

/-- C10 witness: with template `s ↦ "/c" + s`, the download path for
`/a/s1/f.txt` is `/c/c/a/f.txt` — the template applied twice. -/
theorem download_applies_template_twice_witness :
    download envC10 ⟨none, str ("/a/s1/f.txt")⟩
      = Except.ok ⟨str ("alice"), 1, str ("s1"), str ("/c/c/a/f.txt")⟩ := by
  rw [download_applies_template_twice envC10 ⟨none, str ("/a/s1/f.txt")⟩
    ⟨str ("uid"), str ("alice")⟩ [⟨1, str ("/a")⟩] (str ("/a")) (str ("s1"))
    (str ("f.txt")) 1 ⟨str ("f.txt"), str ("file"), 7, 3⟩
    rfl rfl rfl (by decide) (by decide) (by decide) rfl (by decide)
    (by decide) (by decide) (by decide) (by decide) (by decide) (by decide) (by decide)]
  decide

/-- A concrete environment for C4: one backup under `/eos`, identity
catalog template, remote calls unreachable. -/
def envC4 : Env :=
  { user := some ⟨str ("uid-alice"), str ("alice")⟩
    listBackupsF := Except.ok [⟨1, str ("/eos/home-g/gdelmont")⟩]
    statF := fun _ _ _ _ => Except.error (GoError.upstream [])
    getSnapshotF := fun _ _ _ => Except.error (GoError.upstream [])
    tplCback := fun s => s }

/-- C4 failing input, evaluated: `GetMD` tests `isParentOfBackup` on the
`source` variable — which is the (template of the) empty string after a
failed `split` — instead of `ref.Path`.  The ancestor path `/eos` gets a
placeholder whose path is `""`, not `/eos`; and the unrelated path
`/zzz`, which the claim says must give NotFound, also gets a placeholder
for `""` because the empty source is a segment-prefix of the absolute
backup source. -/
theorem getMD_parent_of_backup_bug :
    getMD envC4 ⟨none, str ("/eos")⟩
      = Except.ok (placeholderResourceInfo [] (str ("uid-alice")) none none) ∧
    (placeholderResourceInfo [] (str ("uid-alice")) none none).path ≠ str ("/eos") ∧
    getMD envC4 ⟨none, str ("/zzz")⟩
      = Except.ok (placeholderResourceInfo [] (str ("uid-alice")) none none) := by decide

/-- A concrete environment for C5: one backup with an absolute source,
identity catalog template. -/
def envC5 : Env :=
  { user := some ⟨str ("uid-bob"), str ("bob")⟩
    listBackupsF := Except.ok [⟨2, str ("/eos/project/x")⟩]
    statF := fun _ _ _ _ => Except.error (GoError.upstream [])
    getSnapshotF := fun _ _ _ => Except.error (GoError.upstream [])
    tplCback := fun s => s }

/-- C5 failing input, evaluated: a reference whose id has a non-base64
opaque payload does not produce a BadRequest/NotFound — the failed decode
leaves `source = ""` and the parent-of-backup branch returns a success
placeholder for `""`.  Moreover the decoder never inspects the storage
namespace: a well-formed payload under a foreign storage id decodes with
`ok = true`. -/
theorem getMD_malformed_id_bug :
    getMD envC5 ⟨some ⟨str ("cback"), str ("!!!")⟩, []⟩
      = Except.ok (placeholderResourceInfo [] (str ("uid-bob")) none none) ∧
    (decodeResourceID (some ⟨str ("eoshome"),
        (encodeBackupInResourceID 2 (str ("s")) (str ("/p")) []).opaqueId⟩)).ok = true := by
  decide

/-! ## The cache-aside layer (`listBackups`, part_001 lines 29–43)

The gcache LRU store is modelled as an insertion-ordered association
list with per-entry absolute expiry times and an abstract clock;
capacity eviction is not exercised by the verified scenarios.  The remote
client is an oracle indexed by the number of remote calls made so far,
which also serves as the call counter. -/

/-- Driver state: the cache contents and the number of remote calls. -/
structure FsState where
  cache : List (GoStr × List Backup × Nat)
  calls : Nat
deriving DecidableEq

/-- gcache `Get`: the newest entry for the key; expired entries miss. -/
def cacheGet (now : Nat) (entries : List (GoStr × List Backup × Nat))
    (key : GoStr) : Option (List Backup) :=
  match entries.find? (fun e => decide (e.1 = key)) with
  | some (_, v, exp) => if now < exp then some v else none
  | none => none

/-- `listBackups`: look up `"backups:" + username`; on a miss call the
remote client, remap every source through the storage-direction template,
and store the result with expiry `now + expiration` (`SetWithExpire`
errors are discarded); on a remote error propagate it and cache
nothing. -/
def listBackups (tplStorage : GoStr → GoStr) (expiration : Nat)
    (client : Nat → Except GoError (List Backup))
    (username : GoStr) (now : Nat) (st : FsState) :
    Except GoError (List Backup) × FsState :=
  let key := str ("backups:") ++ username
  match cacheGet now st.cache key with
  | some v => (Except.ok v, st)
  | none =>
    match client st.calls with
    | Except.error e => (Except.error e, ⟨st.cache, st.calls + 1⟩)
    | Except.ok bs =>
      let bs' := bs.map (fun b => { b with source := tplStorage b.source })
      (Except.ok bs', ⟨(key, bs', now + expiration) :: st.cache, st.calls + 1⟩)

/-- C6.  Cache-aside behaviour of `listBackups`: starting from a miss, a
successful remote call returns the template-remapped backups and caches
them; a second call for the same username within the expiration window
returns the identical value and leaves the state — including the remote
call counter — unchanged, so the remote client is not invoked again.  A
failed remote call propagates the error and caches nothing. -/
theorem listBackups_cache_aside (tplStorage : GoStr → GoStr) (expiration : Nat)
    (client : Nat → Except GoError (List Backup)) (username : GoStr)
    (t0 t1 : Nat) (st0 : FsState) (bs : List Backup) (err : GoError) :
    (cacheGet t0 st0.cache (str ("backups:") ++ username) = none →
      client st0.calls = Except.ok bs →
      t1 < t0 + expiration →
      listBackups tplStorage expiration client username t0 st0
        = (Except.ok (bs.map (fun b => { b with source := tplStorage b.source })),
           ⟨(str ("backups:") ++ username,
             bs.map (fun b => { b with source := tplStorage b.source }),
             t0 + expiration) :: st0.cache, st0.calls + 1⟩) ∧
      listBackups tplStorage expiration client username t1
          ⟨(str ("backups:") ++ username,
            bs.map (fun b => { b with source := tplStorage b.source }),
            t0 + expiration) :: st0.cache, st0.calls + 1⟩
        = (Except.ok (bs.map (fun b => { b with source := tplStorage b.source })),
           ⟨(str ("backups:") ++ username,
             bs.map (fun b => { b with source := tplStorage b.source }),
             t0 + expiration) :: st0.cache, st0.calls + 1⟩)) ∧
    (cacheGet t0 st0.cache (str ("backups:") ++ username) = none →
      client st0.calls = Except.error err →
      listBackups tplStorage expiration client username t0 st0
        = (Except.error err, ⟨st0.cache, st0.calls + 1⟩)) := by
  constructor
  · intro hmiss hok hwin
    constructor
    · simp only [listBackups, hmiss, hok]
    · have hhit : cacheGet t1
          ((str ("backups:") ++ username,
            bs.map (fun b => { b with source := tplStorage b.source }),
            t0 + expiration) :: st0.cache) (str ("backups:") ++ username)
          = some (bs.map (fun b => { b with source := tplStorage b.source })) := by
        unfold cacheGet
        rw [List.find?_cons_of_pos _ (by simp)]
        show (if t1 < t0 + expiration then
                some (bs.map (fun b => { b with source := tplStorage b.source }))
              else none)
            = some (bs.map (fun b => { b with source := tplStorage b.source }))
        rw [if_pos hwin]
      simp only [listBackups, hhit]
  · intro hmiss herr
    simp only [listBackups, hmiss, herr]

/-- C6 witness: a concrete hit within the window (the call counter stays
at 1) and a concrete propagated error with an unchanged cache. -/
theorem listBackups_cache_aside_witness :
    listBackups (fun s => str ("/n") ++ s) 300 (fun _ => Except.ok [⟨1, str ("/a")⟩])
        (str ("alice")) 5
        ⟨[(str ("backups:alice"), [⟨1, str ("/n/a")⟩], 300)], 1⟩
      = (Except.ok [⟨1, str ("/n/a")⟩],
         ⟨[(str ("backups:alice"), [⟨1, str ("/n/a")⟩], 300)], 1⟩) ∧
    listBackups (fun s => str ("/n") ++ s) 300
        (fun _ => Except.error (GoError.upstream [])) (str ("bob")) 0 ⟨[], 0⟩
      = (Except.error (GoError.upstream []), ⟨[], 1⟩) := by
  constructor
  · exact ((listBackups_cache_aside (fun s => str ("/n") ++ s) 300
      (fun _ => Except.ok [⟨1, str ("/a")⟩]) (str ("alice")) 0 5 ⟨[], 0⟩
      [⟨1, str ("/a")⟩] (GoError.upstream [])).1 (by decide) rfl (by omega)).2
  · exact (listBackups_cache_aside (fun s => str ("/n") ++ s) 300
      (fun _ => Except.error (GoError.upstream [])) (str ("bob")) 0 0 ⟨[], 0⟩
      [] (GoError.upstream [])).2 (by decide) rfl

/-! ## The snapshot-listing branch of `ListFolder`
(cback.go lines 367–378) -/

/-- A snapshot as cached by `listSnapshots`: its id and its
format-truncated capture time. -/
structure SnapshotRec where
  sid : GoStr
  time : Nat
deriving DecidableEq

/-- The branch of `ListFolder` taken when the path resolved to a backup
source with no snapshot segment: one placeholder directory per snapshot,
at `filepath.Join(source, s.Time.Format(TimestampFormat))`, carrying the
snapshot time and an id encoded with an empty path.  `fmtTime` is the
configured timestamp format. -/
def listFolderSnapshots (fmtTime : Nat → GoStr) (source : GoStr) (id : Int)
    (owner : GoStr) (snapshots : List SnapshotRec) : List ResourceInfo :=
  snapshots.map (fun s =>
    placeholderResourceInfo (joinPath source (fmtTime s.time)) owner (some s.time)
      (some (encodeBackupInResourceID id (fmtTime s.time) source [])))

/-- C7 amended: `ListFolder` on a snapshot-level directory returns
exactly one synthetic entry per snapshot, in order, whose path joins the
source with the formatted snapshot timestamp.  (Distinctness of the
entries is not guaranteed: it holds only when the joined formatted
names are pairwise distinct — see the counterexample.) -/
theorem listFolderSnapshots_paths (fmtTime : Nat → GoStr) (source : GoStr) (id : Int)
    (owner : GoStr) (snapshots : List SnapshotRec) :
    (listFolderSnapshots fmtTime source id owner snapshots).map (fun ri => ri.path)
      = snapshots.map (fun s => joinPath source (fmtTime s.time)) := by
  simp [listFolderSnapshots, placeholderResourceInfo]

/-- C7 counterexample: with a coarse timestamp format two snapshots
render identically, and the two returned entries share the same path —
the branch performs no de-duplication. -/
theorem listFolderSnapshots_collision :
    (listFolderSnapshots (fun t => natDigits (t / 1000000)) (str ("/a")) 1 (str ("uid"))
        [⟨str ("s1"), 1⟩, ⟨str ("s2"), 2⟩]).map (fun ri => ri.path)
      = [str ("/a/0"), str ("/a/0")] := by decide

/-! ## The not-supported stubs (cback.go lines 441–571)

Every mutation and advanced-feature method returns
`errtypes.NotSupported("Operation Not Permitted")` unconditionally.
Success payloads that are never produced, and argument types not
otherwise modelled (grants, locks, metadata, upload bodies, storage-space
requests), are left polymorphic. -/

/-- The error all stubs return. -/
def opNotPermitted : GoError := GoError.notSupported (str ("Operation Not Permitted"))

def GetHome : Except GoError GoStr := Except.error opNotPermitted

def CreateHome : Except GoError Unit := Except.error opNotPermitted

def CreateDir (_ : Option Reference) : Except GoError Unit := Except.error opNotPermitted

def TouchFile (_ : Option Reference) : Except GoError Unit := Except.error opNotPermitted

def Delete (_ : Option Reference) : Except GoError Unit := Except.error opNotPermitted

def Move (_ _ : Option Reference) : Except GoError Unit := Except.error opNotPermitted

def ListRevisions (_ : Option Reference) : Except GoError (List Unit) :=
  Except.error opNotPermitted

def DownloadRevision (_ : Option Reference) (_ : GoStr) : Except GoError Unit :=
  Except.error opNotPermitted

def RestoreRevision (_ : Option Reference) (_ : GoStr) : Except GoError Unit :=
  Except.error opNotPermitted

def GetPathByID (_ : Option ResourceId) : Except GoError GoStr :=
  Except.error opNotPermitted

def AddGrant {α : Type} (_ : Option Reference) (_ : α) : Except GoError Unit :=
  Except.error opNotPermitted

def RemoveGrant {α : Type} (_ : Option Reference) (_ : α) : Except GoError Unit :=
  Except.error opNotPermitted

def UpdateGrant {α : Type} (_ : Option Reference) (_ : α) : Except GoError Unit :=
  Except.error opNotPermitted

def DenyGrant {α : Type} (_ : Option Reference) (_ : α) : Except GoError Unit :=
  Except.error opNotPermitted

def ListGrants (_ : Option Reference) : Except GoError (List Unit) :=
  Except.error opNotPermitted

def GetQuota (_ : Option Reference) : Except GoError (Nat × Nat) :=
  Except.error opNotPermitted

def CreateReference (_ : GoStr) {α : Type} (_ : α) : Except GoError Unit :=
  Except.error opNotPermitted

def Shutdown : Except GoError Unit := Except.error opNotPermitted

def SetArbitraryMetadata {α : Type} (_ : Option Reference) (_ : α) : Except GoError Unit :=
  Except.error opNotPermitted

def UnsetArbitraryMetadata (_ : Option Reference) (_ : List GoStr) : Except GoError Unit :=
  Except.error opNotPermitted

def EmptyRecycle : Except GoError Unit := Except.error opNotPermitted

def CreateStorageSpace {α : Type} (_ : α) : Except GoError Unit :=
  Except.error opNotPermitted

def ListRecycle (_ _ _ : GoStr) (_ _ : Option Nat) : Except GoError (List Unit) :=
  Except.error opNotPermitted

def RestoreRecycleItem (_ _ _ : GoStr) (_ : Option Reference) : Except GoError Unit :=
  Except.error opNotPermitted

def PurgeRecycleItem (_ _ _ : GoStr) : Except GoError Unit := Except.error opNotPermitted

def ListStorageSpaces {α : Type} (_ : List α) : Except GoError (List Unit) :=
  Except.error opNotPermitted

def UpdateStorageSpace {α : Type} (_ : α) : Except GoError Unit :=
  Except.error opNotPermitted

def SetLock {α : Type} (_ : Option Reference) (_ : α) : Except GoError Unit :=
  Except.error opNotPermitted

def GetLock (_ : Option Reference) : Except GoError Unit := Except.error opNotPermitted

def RefreshLock {α : Type} (_ : Option Reference) (_ : α) (_ : GoStr) :
    Except GoError Unit := Except.error opNotPermitted

def Unlock {α : Type} (_ : Option Reference) (_ : α) : Except GoError Unit :=
  Except.error opNotPermitted

def Upload {α : Type} (_ : Option Reference) (_ : α) (_ : List (GoStr × GoStr)) :
    Except GoError Unit := Except.error opNotPermitted

def InitiateUpload (_ : Option Reference) (_ : Int) (_ : List (GoStr × GoStr)) :
    Except GoError (List (GoStr × GoStr)) := Except.error opNotPermitted

/-- C9.  Every mutation and advanced-feature method of the driver returns
the NotSupported error for every input — including nil references — and
has no other effect (each stub is a pure constant). -/
theorem all_stubs_not_supported :
    GetHome = Except.error opNotPermitted ∧
    CreateHome = Except.error opNotPermitted ∧
    (∀ r, CreateDir r = Except.error opNotPermitted) ∧
    (∀ r, TouchFile r = Except.error opNotPermitted) ∧
    (∀ r, Delete r = Except.error opNotPermitted) ∧
    (∀ r1 r2, Move r1 r2 = Except.error opNotPermitted) ∧
    (∀ r, ListRevisions r = Except.error opNotPermitted) ∧
    (∀ r k, DownloadRevision r k = Except.error opNotPermitted) ∧
    (∀ r k, RestoreRevision r k = Except.error opNotPermitted) ∧
    (∀ i, GetPathByID i = Except.error opNotPermitted) ∧
    (∀ (α : Type) (r : Option Reference) (g : α), AddGrant r g = Except.error opNotPermitted) ∧
    (∀ (α : Type) (r : Option Reference) (g : α), RemoveGrant r g = Except.error opNotPermitted) ∧
    (∀ (α : Type) (r : Option Reference) (g : α), UpdateGrant r g = Except.error opNotPermitted) ∧
    (∀ (α : Type) (r : Option Reference) (g : α), DenyGrant r g = Except.error opNotPermitted) ∧
    (∀ r, ListGrants r = Except.error opNotPermitted) ∧
    (∀ r, GetQuota r = Except.error opNotPermitted) ∧
    (∀ (p : GoStr) (α : Type) (u : α), CreateReference p u = Except.error opNotPermitted) ∧
    Shutdown = Except.error opNotPermitted ∧
    (∀ (α : Type) (r : Option Reference) (m : α),
      SetArbitraryMetadata r m = Except.error opNotPermitted) ∧
    (∀ r ks, UnsetArbitraryMetadata r ks = Except.error opNotPermitted) ∧
    EmptyRecycle = Except.error opNotPermitted ∧
    (∀ (α : Type) (q : α), CreateStorageSpace q = Except.error opNotPermitted) ∧
    (∀ b k rp f t, ListRecycle b k rp f t = Except.error opNotPermitted) ∧
    (∀ b k rp r, RestoreRecycleItem b k rp r = Except.error opNotPermitted) ∧
    (∀ b k rp, PurgeRecycleItem b k rp = Except.error opNotPermitted) ∧
    (∀ (α : Type) (f : List α), ListStorageSpaces f = Except.error opNotPermitted) ∧
    (∀ (α : Type) (q : α), UpdateStorageSpace q = Except.error opNotPermitted) ∧
    (∀ (α : Type) (r : Option Reference) (l : α), SetLock r l = Except.error opNotPermitted) ∧
    (∀ r, GetLock r = Except.error opNotPermitted) ∧
    (∀ (α : Type) (r : Option Reference) (l : α) (k : GoStr),
      RefreshLock r l k = Except.error opNotPermitted) ∧
    (∀ (α : Type) (r : Option Reference) (l : α), Unlock r l = Except.error opNotPermitted) ∧
    (∀ (α : Type) (r : Option Reference) (body : α) (m : List (GoStr × GoStr)),
      Upload r body m = Except.error opNotPermitted) ∧
    (∀ r n m, InitiateUpload r n m = Except.error opNotPermitted) := by
  refine ⟨rfl, rfl, ?_, ?_, ?_, ?_, ?_, ?_, ?_, ?_, ?_, ?_, ?_, ?_, ?_, ?_, ?_, rfl,
    ?_, ?_, rfl, ?_, ?_, ?_, ?_, ?_, ?_, ?_, ?_, ?_, ?_, ?_, ?_⟩ <;>
    intros <;> rfl

end CbackFS
